import Mathlib

/-!
Verification development for the PyTorch → TensorRT translation engine of
this repository (`converter/pytorch/pytorch_trt_parser.py`).

The stateful walk of `PytorchTensorRTParser.gen_IR` is embedded as explicit
state passing over `PState`; Python exceptions (KeyError, IndexError,
UnboundLocalError, bare `raise`, …) are embedded as an explicit error type
`PErr`.  Each `rename_*` translation routine is embedded at the granularity
of its observable effects on the parser state: the `is_main` reachability
gate it applies, the attribute / `named_layer` / `state_dict` accesses it
performs (in source order, each of which can raise), and the caffe-layer /
`named_layer` registrations it makes on success.  A registered TensorRT
handle is abstracted to its kind plus the producing node's recorded output
shape: `network.add_input` returns a raw `ITensor`, which has no
`get_output` method (the source guards against this only in `rename_Conv`
and `rename_Reshape`), while every other `add_*` call returns an `ILayer`
— so an unguarded `named_layer[...].get_output(0)` on a graph-input handle
raises `AttributeError`.  `named_node` is write-only in the source file and
is omitted.

The numeric batch-norm folding of `rename_BatchNormalization` is embedded
per channel over the reals, and the module-level conv+bn fusion pre-pass
`fuse_all_conv_bn` over an inductive module type (one recursion level; the
source recurses with the same logic into children).
-/

namespace TRTConv

/-- Attribute values stored in a node's attribute bag (`source_node.attrs`). -/
inductive AttrVal
  | ints (l : List Int)
  | str (s : String)
  | num (i : Int)
deriving DecidableEq, Repr

/-- Python exceptions the translation loop can observe. -/
inductive PErr
  | keyError (k : String)
  | indexError
  | unboundLocal (v : String)
  | typeError
  | exn (m : String)
  | attributeError
  | bareRaise
deriving DecidableEq, Repr

/-- One node of the captured source graph, as handed to the parser by the
graph-capture collaborator. -/
structure Node where
  name : String
  real_name : String
  type : String
  in_edges : List String
  attrs : List (String × AttrVal)
  output_shape : Option (List Int)
  weights_name : String
deriving DecidableEq, Repr

/-- External inputs of the walk: the keys present in the weight store
(`self.state_dict`) and the designated model outputs
(`self.pytorch_graph.output_layers`). -/
structure Env where
  state_dict : List String
  output_layers : List String
deriving DecidableEq, Repr

/-- A handle registered in `named_layer`: `network.add_input` returns a raw
`ITensor` (no `get_output` method), every other `add_*` call an `ILayer`
(whose `get_output(0)` succeeds).  Beyond its kind, a handle is abstracted
to the producing node's recorded output shape. -/
inductive TRTHandle
  | tensor (shape : List Int)
  | layer (shape : List Int)
deriving DecidableEq, Repr

/-- The parser state mutated during the walk.  `mainTops` records, in
append order, the single `top` name of every caffe layer appended to
`self.main_layers` (each routine appends exactly one `top`, the node name).
`namedLayer` records the keys of `self.named_layer` together with the
registered handle. -/
structure PState where
  mainTops : List String
  namedLayer : List (String × TRTHandle)
deriving DecidableEq, Repr

/-- Result of one translation routine: Python mutates `self` in place, so
an escaping exception still carries the state mutated so far. -/
inductive RRes
  | ok (s : PState)
  | err (e : PErr) (s : PState)
deriving DecidableEq, Repr

/-- The state carried by a routine result. -/
def RRes.state : RRes → PState
  | .ok s => s
  | .err _ s => s

/-- The category lookup table `layer_map` of the source file, verbatim. -/
def layer_map : List (String × String) :=
  [("Data", "Data"),
   ("onnx::Conv", "Conv"),
   ("onnx::Sigmoid", "Sigmoid"),
   ("onnx::PRelu", "PRelu"),
   ("onnx::BatchNormalization", "BatchNormalization"),
   ("onnx::Relu", "Relu"),
   ("onnx::MaxPool", "MaxPool"),
   ("onnx::Add", "Add"),
   ("onnx::AveragePool", "AveragePool"),
   ("onnx::GlobalAveragePool", "GlobalAveragePool"),
   ("onnx::Flatten", "Flatten"),
   ("onnx::Gemm", "FullyConnected"),
   ("onnx::Dropout", "Dropout"),
   ("onnx::LogSoftmax", "Softmax"),
   ("onnx::Transpose", "Permute"),
   ("onnx::Upsample", "Upsample"),
   ("onnx::Concat", "Concat"),
   ("onnx::Unsqueeze", "Unsqueeze"),
   ("onnx::Clip", "Clip"),
   ("onnx::Pad", "Pad"),
   ("onnx::HardSwish", "HardSwish"),
   ("onnx::HardSigmoid", "HardSigmoid"),
   ("onnx::Mul", "Mul"),
   ("onnx::Slice", "Slice"),
   ("onnx::Softmax", "Softmax"),
   ("onnx::Constant", "Common"),
   ("onnx::Reshape", "Reshape"),
   ("onnx::Split", "Split"),
   ("onnx::LpNormalization", "LpNormalization"),
   ("prim::Constant", "Constant"),
   ("onnx::LeakyRelu", "LeakyRelu"),
   ("onnx::Resize", "Resize"),
   ("onnx::ReduceMean", "ReduceMean"),
   ("onnx::BilinearInterpolate", "BilinearInterpolate"),
   ("onnx::Shape", "Common"),
   ("onnx::Gather", "Gather"),
   ("onnx::Sub", "Common"),
   ("onnx::MaxUnpool", "MaxUnPool"),
   ("onnx::ConvTranspose", "ConvTranspose"),
   ("onnx::Cast", "Common"),
   ("onnx::ConstantOfShape", "Common"),
   ("onnx::Div", "Common")]

/-- Dictionary lookup `layer_map[onnx_node_type]` (None ⇒ KeyError at the
call site). -/
def lookupLayerMap (k : String) : Option String :=
  (layer_map.find? (fun p => p.1 == k)).map (fun p => p.2)

/-- `PytorchTensorRTParser.is_main`: every name in `inputs` must occur as a
`top` of some layer already in `self.main_layers` (each appended layer has
exactly one `top`). -/
def is_main (mainTops : List String) (inputs : List String) : Bool :=
  inputs.all (fun inp => mainTops.any (fun t => t == inp))

/-- `attr[k]` as an optional lookup (`k in attr` tests `isSome`). -/
def getAttrOpt (n : Node) (k : String) : Option AttrVal :=
  (n.attrs.find? (fun p => p.1 == k)).map (fun p => p.2)

/-- `k in attr`. -/
def hasAttrKey (n : Node) (k : String) : Bool :=
  (getAttrOpt n k).isSome

/-- `attr[k]`, raising `KeyError` when absent. -/
def getAttr (n : Node) (k : String) : Except PErr AttrVal :=
  match getAttrOpt n k with
  | some v => .ok v
  | none => .error (.keyError k)

/-- `source_node.in_edges[i]`, raising `IndexError` when out of range. -/
def getEdge (n : Node) (i : Nat) : Except PErr String :=
  match n.in_edges.get? i with
  | some x => .ok x
  | none => .error .indexError

/-- `l[i]` on an attribute's integer list, raising `IndexError`. -/
def getIdx (l : List Int) (i : Nat) : Except PErr Int :=
  match l.get? i with
  | some v => .ok v
  | none => .error .indexError

/-- `self.named_layer[k].get_output(0)`: KeyError when the key is absent;
AttributeError when the registered handle is the raw `ITensor` from
`add_input` (it has no `get_output`); otherwise the `ILayer` output's
recorded shape. -/
def getNamed (s : PState) (k : String) : Except PErr (List Int) :=
  match (s.namedLayer.find? (fun p => p.1 == k)).map (fun p => p.2) with
  | some (TRTHandle.tensor _) => .error .attributeError
  | some (TRTHandle.layer shape) => .ok shape
  | none => .error (.keyError k)

/-- The isinstance-guarded input read of `rename_Conv` / `rename_Reshape`
(an `ITensor` is used directly, an `ILayer` via `get_output(0)`), and the
plain dict read of `rename_Flatten`: only a KeyError is possible. -/
def getNamedAny (s : PState) (k : String) : Except PErr TRTHandle :=
  match s.namedLayer.find? (fun p => p.1 == k) with
  | some p => .ok p.2
  | none => .error (.keyError k)

/-- `k in self.state_dict`. -/
def sdHas (env : Env) (k : String) : Bool :=
  env.state_dict.any (fun x => x == k)

/-- `self.state_dict[k]`, raising `KeyError` when absent (tensor contents
are tracked separately where a claim needs them). -/
def sdGet (env : Env) (k : String) : Except PErr Unit :=
  if sdHas env k then .ok () else .error (.keyError k)

/-- Python-dict assignment `d[k] = v`: replace the existing binding in
place, else append (insertion order preserved). -/
def setNamed (m : List (String × TRTHandle)) (k : String) (v : TRTHandle) :
    List (String × TRTHandle) :=
  if m.any (fun p => p.1 == k) then
    m.map (fun p => if p.1 == k then (k, v) else p)
  else m ++ [(k, v)]

/-- `attr[k] == "lit"` on a (possibly non-string) attribute value: Python
compares unequal without raising when the value is not a string. -/
def attrStrEq (v : AttrVal) (lit : String) : Bool :=
  match v with
  | .str s => s == lit
  | _ => false

/-- The common tail of every successful routine: append a caffe layer whose
single `top` is the node name, and register the node name in `named_layer`
as an `ILayer` handle (shape abstracted to the node's recorded output
shape). -/
def addLayer (s : PState) (n : Node) : PState :=
  { mainTops := s.mainTops ++ [n.name],
    namedLayer := setNamed s.namedLayer n.name
      (TRTHandle.layer (n.output_shape.getD [])) }

/-- Shared shape of every gated `rename_*` routine of the source: an
`is_main` guard returning `None` (state untouched) when it fails, a body of
fallible accesses performed before any state mutation, and on success the
caffe-layer append plus `named_layer` registration. -/
def gatedRoutine (s : PState) (n : Node) (gate : List String)
    (body : Except PErr Unit) : RRes :=
  if is_main s.mainTops gate then
    match body with
    | .ok _ => .ok (addLayer s n)
    | .error e => .err e s
  else .ok s

/-- `pads` handling shared verbatim by `rename_Conv`, `rename_ConvTranspose`
and `rename_MaxPool`: a 4-element list is reduced to its first two entries,
a 2-element list is taken as is, any other length leaves the local `pads`
unassigned (`none`). -/
def conv_pads (l : List Int) : Option (Int × Int) :=
  if l.length == 4 then some (l.getD 0 0, l.getD 1 0)
  else if l.length == 2 then some (l.getD 0 0, l.getD 1 0)
  else none

/-- `rename_Common`: log a skip warning and return `None`. -/
def rename_Common (_n : Node) (s : PState) : RRes :=
  .ok s

/-- `rename_Data`: `network.add_input` (infallible) returns a raw
`ITensor`, registered under the node name. -/
def rename_Data (n : Node) (s : PState) : RRes :=
  .ok { mainTops := s.mainTops ++ [n.name],
        namedLayer := setNamed s.namedLayer n.name
          (TRTHandle.tensor (n.output_shape.getD [])) }

/-- `rename_Conv` (observable effects): gate on `in_edges[0:1]`;
`attr['pads']` (KeyError), `state_dict` weight lookup (KeyError),
`named_layer[in_edges[0]]` (IndexError/KeyError — the read is
isinstance-guarded, so a raw `ITensor` input is accepted); a `pads` list of
length other than 2 or 4 leaves the local unassigned, raising
UnboundLocalError at `layer.padding = pads`. -/
def rename_Conv (env : Env) (n : Node) (s : PState) : RRes :=
  gatedRoutine s n (n.in_edges.take 1) (do
    let pa ← getAttr n "pads"
    let padsOpt := match pa with
      | .ints l => conv_pads l
      | _ => none
    let _ ← sdGet env (n.weights_name ++ ".weight")
    let e0 ← getEdge n 0
    let _ ← getNamedAny s e0
    match padsOpt with
    | some _ => pure ()
    | none => throw (.unboundLocal "pads"))

/-- `rename_Relu`. -/
def rename_Relu (n : Node) (s : PState) : RRes :=
  gatedRoutine s n (n.in_edges.take 1) (do
    let e0 ← getEdge n 0
    let _ ← getNamed s e0
    pure ())

/-- Body of `rename_MaxPool`: `attr['pads']` (KeyError); when `'strides'`
(resp. `'kernel_shape'`) is absent the source references the
not-yet-assigned local `layer` (`layer.pooling_param...`), raising
UnboundLocalError; then `named_layer[in_edges[0]]`, and finally
`layer.padding = pads` raises UnboundLocalError when the pads length was
neither 2 nor 4. -/
def maxPoolBody (n : Node) (s : PState) : Except PErr Unit := do
  let pa ← getAttr n "pads"
  let padsOpt := match pa with
    | .ints l => conv_pads l
    | _ => none
  if !(hasAttrKey n "strides") then throw (.unboundLocal "layer")
  else if !(hasAttrKey n "kernel_shape") then throw (.unboundLocal "layer")
  else do
    let e0 ← getEdge n 0
    let _ ← getNamed s e0
    match padsOpt with
    | some _ => pure ()
    | none => throw (.unboundLocal "pads")

/-- `rename_MaxPool`: gate on `in_edges[0:1]`, then `maxPoolBody`. -/
def rename_MaxPool (n : Node) (s : PState) : RRes :=
  gatedRoutine s n (n.in_edges.take 1) (maxPoolBody n s)

/-- `rename_Add`: gate on `in_edges[0:2]`, then both inputs are read from
`named_layer`. -/
def rename_Add (n : Node) (s : PState) : RRes :=
  gatedRoutine s n (n.in_edges.take 2) (do
    let e0 ← getEdge n 0
    let _ ← getNamed s e0
    let e1 ← getEdge n 1
    let _ ← getNamed s e1
    pure ())

/-- `rename_GlobalAveragePool`. -/
def rename_GlobalAveragePool (n : Node) (s : PState) : RRes :=
  gatedRoutine s n (n.in_edges.take 1) (do
    let e0 ← getEdge n 0
    let _ ← getNamed s e0
    pure ())

/-- `rename_Flatten`: the caffe layer is appended *before* the
`named_layer[in_edges[0]]` read, so a KeyError there escapes with the
`top` already appended; on success the node name aliases the input's
registered handle (a plain dict read, no `get_output`). -/
def rename_Flatten (n : Node) (s : PState) : RRes :=
  if is_main s.mainTops (n.in_edges.take 1) then
    let s1 : PState := { s with mainTops := s.mainTops ++ [n.name] }
    match (do
        let e0 ← getEdge n 0
        getNamedAny s1 e0 : Except PErr TRTHandle) with
    | .error e => .err e s1
    | .ok h => .ok { s1 with namedLayer := setNamed s1.namedLayer n.name h }
  else .ok s

/-- `rename_FullyConnected` (walk-level effects): weight lookup (KeyError),
input read; when the input rank is not 4 the reshape-back reads
`source_node.output_shape[1:]`, a TypeError when the shape is `None`. -/
def rename_FullyConnected (env : Env) (n : Node) (s : PState) : RRes :=
  gatedRoutine s n (n.in_edges.take 1) (do
    let _ ← sdGet env (n.weights_name ++ ".weight")
    let e0 ← getEdge n 0
    let shp ← getNamed s e0
    if shp.length == 4 then pure ()
    else
      match n.output_shape with
      | some _ => pure ()
      | none => throw .typeError)

/-- `rename_Sigmoid`. -/
def rename_Sigmoid (n : Node) (s : PState) : RRes :=
  gatedRoutine s n (n.in_edges.take 1) (do
    let e0 ← getEdge n 0
    let _ ← getNamed s e0
    pure ())

/-- `rename_ReduceSum`: `attr['axes'][0]` then the input read. -/
def rename_ReduceSum (n : Node) (s : PState) : RRes :=
  gatedRoutine s n (n.in_edges.take 1) (do
    let ax ← getAttr n "axes"
    match ax with
    | .ints l => do
      let _ ← getIdx l 0
      pure ()
    | _ => throw .typeError
    let e0 ← getEdge n 0
    let _ ← getNamed s e0
    pure ())

/-- `rename_Div`: gate on `in_edges[0:2]`, both inputs read. -/
def rename_Div (n : Node) (s : PState) : RRes :=
  gatedRoutine s n (n.in_edges.take 2) (do
    let e0 ← getEdge n 0
    let _ ← getNamed s e0
    let e1 ← getEdge n 1
    let _ ← getNamed s e1
    pure ())

/-- `rename_Mul`: gate on `in_edges[0:1]` only.  With a `'scale'` attribute
only `in_edges[0]` is resolved; otherwise `named_layer[in_edges[1]]` is
also read (KeyError when the second input was never materialized).  In both
branches the caffe layer then appends `in_edges[1]` as a `bottom`
(IndexError when fewer than two edges). -/
def rename_Mul (n : Node) (s : PState) : RRes :=
  gatedRoutine s n (n.in_edges.take 1) (do
    if hasAttrKey n "scale" then do
      let e0 ← getEdge n 0
      let _ ← getNamed s e0
      pure ()
    else do
      let e0 ← getEdge n 0
      let _ ← getNamed s e0
      let e1 ← getEdge n 1
      let _ ← getNamed s e1
      pure ()
    let _ ← getEdge n 1
    pure ())

/-- `rename_ConvTranspose`: like `rename_Conv` plus the
`output_padding[0] + output_padding[1]` reads (IndexError when a provided
list is shorter than 2); both padding branches then assign from the local
`pads` (UnboundLocalError when its length was neither 2 nor 4). -/
def rename_ConvTranspose (env : Env) (n : Node) (s : PState) : RRes :=
  gatedRoutine s n (n.in_edges.take 1) (do
    let pa ← getAttr n "pads"
    let padsOpt := match pa with
      | .ints l => conv_pads l
      | _ => none
    let _ ← sdGet env (n.weights_name ++ ".weight")
    let e0 ← getEdge n 0
    let _ ← getNamed s e0
    let op := match getAttrOpt n "output_padding" with
      | some (.ints l) => l
      | _ => [0, 0]
    let _ ← getIdx op 0
    let _ ← getIdx op 1
    match padsOpt with
    | some _ => pure ()
    | none => throw (.unboundLocal "pads"))

/-- `rename_Concat`: gate on all `in_edges`; every input is read, then
`attr['axis']`. -/
def rename_Concat (n : Node) (s : PState) : RRes :=
  gatedRoutine s n n.in_edges (do
    for x in n.in_edges do
      let _ ← getNamed s x
      pure ()
    let _ ← getAttr n "axis"
    pure ())

/-- `rename_Reshape`: `attr['shape']`, else the node's static output shape,
else `raise Exception('Shape get not be retrived')`; then the
isinstance-guarded input read. -/
def rename_Reshape (n : Node) (s : PState) : RRes :=
  gatedRoutine s n (n.in_edges.take 1) (do
    if hasAttrKey n "shape" then pure ()
    else
      match n.output_shape with
      | some _ => pure ()
      | none => throw (.exn "Shape get not be retrived")
    let e0 ← getEdge n 0
    let _ ← getNamedAny s e0
    pure ())

/-- `rename_Permute`: gate on all `in_edges`; `'perm'` is optional
(defaulting to an empty order); then `named_layer[in_edges[0]]`. -/
def rename_Permute (n : Node) (s : PState) : RRes :=
  gatedRoutine s n n.in_edges (do
    let e0 ← getEdge n 0
    let _ ← getNamed s e0
    pure ())

/-- Body of `rename_Resize`: input read; `attr['scale_factor'][0]` when
present, else `attr['output_size']` (KeyError); `attr['mode']` (KeyError)
selects LINEAR/NEAREST without failing; a coordinate-transformation mode
other than `"pytorch_half_pixel"` or `"asymmetric"` hits a bare `raise`, as
does a nearest mode other than `"floor"`. -/
def resizeBody (n : Node) (s : PState) : Except PErr Unit := do
  let e0 ← getEdge n 0
  let _ ← getNamed s e0
  if hasAttrKey n "scale_factor" then do
    let sf ← getAttr n "scale_factor"
    match sf with
    | .ints l => do
      let _ ← getIdx l 0
      pure ()
    | _ => throw .typeError
  else do
    let _ ← getAttr n "output_size"
    pure ()
  let _ ← getAttr n "mode"
  let ctm ← getAttr n "coordinate_transformation_mode"
  if attrStrEq ctm "pytorch_half_pixel" then pure ()
  else if attrStrEq ctm "asymmetric" then pure ()
  else throw .bareRaise
  let nmode ← getAttr n "nearest_mode"
  if attrStrEq nmode "floor" then pure ()
  else throw .bareRaise

/-- `rename_Resize`: gate on `in_edges[0:1]`, then `resizeBody`. -/
def rename_Resize (n : Node) (s : PState) : RRes :=
  gatedRoutine s n (n.in_edges.take 1) (resizeBody n s)

/-- `rename_AveragePool`: `attr['kernel_shape']` and `attr['strides']`
(KeyError when absent), then the input read. -/
def rename_AveragePool (n : Node) (s : PState) : RRes :=
  gatedRoutine s n (n.in_edges.take 1) (do
    let _ ← getAttr n "kernel_shape"
    let _ ← getAttr n "strides"
    let e0 ← getEdge n 0
    let _ ← getNamed s e0
    pure ())

/-- `rename_Gather`: `attr['axis']`, `attr['indices']`, then the input. -/
def rename_Gather (n : Node) (s : PState) : RRes :=
  gatedRoutine s n (n.in_edges.take 1) (do
    let _ ← getAttr n "axis"
    let _ ← getAttr n "indices"
    let e0 ← getEdge n 0
    let _ ← getNamed s e0
    pure ())

/-- `rename_BatchNormalization` (walk-level effects): running mean /
variance / weight lookups (KeyError), optional bias, then the input read.
The per-channel numerics are `bn_new_w` / `bn_new_b` below. -/
def rename_BatchNormalization (env : Env) (n : Node) (s : PState) : RRes :=
  gatedRoutine s n (n.in_edges.take 1) (do
    let _ ← sdGet env (n.weights_name ++ ".running_mean")
    let _ ← sdGet env (n.weights_name ++ ".running_var")
    let _ ← sdGet env (n.weights_name ++ ".weight")
    let e0 ← getEdge n 0
    let _ ← getNamed s e0
    pure ())

/-- `rename_Softmax`. -/
def rename_Softmax (n : Node) (s : PState) : RRes :=
  gatedRoutine s n (n.in_edges.take 1) (do
    let e0 ← getEdge n 0
    let _ ← getNamed s e0
    pure ())

/-- `rename_Clip`: input read, then `attr['min']` and `attr['max']`. -/
def rename_Clip (n : Node) (s : PState) : RRes :=
  gatedRoutine s n (n.in_edges.take 1) (do
    let e0 ← getEdge n 0
    let _ ← getNamed s e0
    let _ ← getAttr n "min"
    let _ ← getAttr n "max"
    pure ())

/-- `rename_HardSigmoid`: input read, then `attr['alpha']`. -/
def rename_HardSigmoid (n : Node) (s : PState) : RRes :=
  gatedRoutine s n (n.in_edges.take 1) (do
    let e0 ← getEdge n 0
    let _ ← getNamed s e0
    let _ ← getAttr n "alpha"
    pure ())

/-- `rename_HardSwish`. -/
def rename_HardSwish (n : Node) (s : PState) : RRes :=
  gatedRoutine s n (n.in_edges.take 1) (do
    let e0 ← getEdge n 0
    let _ ← getNamed s e0
    pure ())

/-- The registered `rename_` routines of the class, keyed by target
category (the method table consulted by `hasattr`). -/
def renameRoutines : List (String × (Env → Node → PState → RRes)) :=
  [("Common", fun _ n s => rename_Common n s),
   ("Data", fun _ n s => rename_Data n s),
   ("Conv", fun env n s => rename_Conv env n s),
   ("Relu", fun _ n s => rename_Relu n s),
   ("MaxPool", fun _ n s => rename_MaxPool n s),
   ("Add", fun _ n s => rename_Add n s),
   ("GlobalAveragePool", fun _ n s => rename_GlobalAveragePool n s),
   ("Flatten", fun _ n s => rename_Flatten n s),
   ("FullyConnected", fun env n s => rename_FullyConnected env n s),
   ("Sigmoid", fun _ n s => rename_Sigmoid n s),
   ("ReduceSum", fun _ n s => rename_ReduceSum n s),
   ("Div", fun _ n s => rename_Div n s),
   ("Mul", fun _ n s => rename_Mul n s),
   ("ConvTranspose", fun env n s => rename_ConvTranspose env n s),
   ("Concat", fun _ n s => rename_Concat n s),
   ("Reshape", fun _ n s => rename_Reshape n s),
   ("Permute", fun _ n s => rename_Permute n s),
   ("Resize", fun _ n s => rename_Resize n s),
   ("AveragePool", fun _ n s => rename_AveragePool n s),
   ("Gather", fun _ n s => rename_Gather n s),
   ("BatchNormalization", fun env n s => rename_BatchNormalization env n s),
   ("Softmax", fun _ n s => rename_Softmax n s),
   ("Clip", fun _ n s => rename_Clip n s),
   ("HardSigmoid", fun _ n s => rename_HardSigmoid n s),
   ("HardSwish", fun _ n s => rename_HardSwish n s)]

/-- `hasattr(self, "rename_" + node_type)` dispatch of `gen_IR`: a mapped
category with a registered routine runs it, anything else falls back to
`rename_Common`. -/
def renameDispatch (env : Env) (nt : String) (n : Node) (s : PState) : RRes :=
  match (renameRoutines.find? (fun p => p.1 == nt)).map (fun p => p.2) with
  | some f => f env n s
  | none => rename_Common n s

/-- One iteration of the `gen_IR` walk: `layer_map[current_node.type]`
(KeyError when the category has no entry), then routine dispatch. -/
def dispatch (env : Env) (n : Node) (s : PState) : RRes :=
  match lookupLayerMap n.type with
  | none => .err (.keyError n.type) s
  | some nt => renameDispatch env nt n s

/-- The `for node in topological_sort` loop inside `try`: an exception of
any iteration escapes the loop (caught by `except`), leaving the state
mutated so far; remaining nodes are not visited. -/
def walkAux (env : Env) : List Node → PState → PState × Option PErr
  | [], s => (s, none)
  | n :: rest, s =>
    match dispatch env n s with
    | .ok s1 => walkAux env rest s1
    | .err e s1 => (s1, some e)

/-- The empty initial parser state. -/
def initState : PState :=
  { mainTops := [], namedLayer := [] }

/-- The debug-prototxt name normalization `layer.name.replace(".", "")`
(every occurrence of the single character removed). -/
def stripDots (t : String) : String :=
  String.mk (t.toList.filter (fun c => c ≠ '.'))

/-- The `mark_output` loop after the walk, one designated output at a
time: a name missing from `named_layer` raises an uncaught KeyError at the
dict lookup; a name registered as a raw `ITensor` raises an uncaught
AttributeError at `get_output(0)`; otherwise the loop continues. -/
def markOutputs (s : PState) : List String → Except PErr Unit
  | [] => .ok ()
  | o :: rest =>
    match (s.namedLayer.find? (fun p => p.1 == o)).map (fun p => p.2) with
    | none => .error (.keyError o)
    | some (TRTHandle.tensor _) => .error .attributeError
    | some (TRTHandle.layer _) => markOutputs s rest

/-- Finalization: run the `mark_output` loop; when it completes, the plan
is built and deserialized (opaque success). -/
def finalize (env : Env) (s : PState) : Except PErr Unit :=
  markOutputs s env.output_layers

/-- Observable outcome of `gen_IR`: the debug prototxt written in the
`finally` block (always, even after a swallowed exception), the swallowed
walk exception if any, and the finalize outcome. -/
structure GenIR where
  debugTops : List String
  walkError : Option PErr
  engine : Except PErr Unit
deriving Repr

/-- `PytorchTensorRTParser.gen_IR`. -/
def gen_IR (env : Env) (nodes : List Node) : GenIR :=
  let r := walkAux env nodes initState
  { debugTops := r.1.mainTops.map stripDots,
    walkError := r.2,
    engine := finalize env r.1 }

/-- The `in_edges` slice each gated routine passes to `is_main`. -/
def gateSlice (nt : String) (n : Node) : List String :=
  if nt == "Add" || nt == "Div" then n.in_edges.take 2
  else if nt == "Concat" || nt == "Permute" then n.in_edges
  else n.in_edges.take 1

/-- Target categories whose routine begins with an `is_main` gate (all
registered routines except `Data` and `Common`). -/
def gatedNts : List String :=
  ["Conv", "Relu", "MaxPool", "Add", "AveragePool", "GlobalAveragePool",
   "Flatten", "FullyConnected", "Sigmoid", "ReduceSum", "Div", "Mul",
   "ConvTranspose", "Concat", "Reshape", "Permute", "Resize", "Gather",
   "BatchNormalization", "Softmax", "Clip", "HardSigmoid", "HardSwish"]

/-- `layer_map` values for which the class registers no `rename_` routine,
so dispatch falls back to `rename_Common`. -/
def noRoutineNts : List String :=
  ["PRelu", "Dropout", "Upsample", "Unsqueeze", "Pad", "Slice", "Split",
   "LpNormalization", "Constant", "LeakyRelu", "ReduceMean",
   "BilinearInterpolate", "MaxUnPool"]

/-! ### Batch-norm folding numerics (`rename_BatchNormalization`, per channel)

The source computes, with numpy float arrays treated here as exact reals
channelwise: `bn_var_rsqrt = 1 / np.sqrt(variance + 1e-05)`,
`new_w = scale * bn_var_rsqrt`, `new_b = (- mean) * bn_var_rsqrt * scale + bias`,
with the bias defaulting to zeros when absent from the weight store. -/

/-- `bn_var_rsqrt = 1 / np.sqrt(variance + bn_eps)` with `bn_eps = 1e-05`. -/
noncomputable def bn_var_rsqrt (variance : ℝ) : ℝ :=
  1 / Real.sqrt (variance + 1e-5)

/-- `new_w = scale * bn_var_rsqrt` (one channel). -/
noncomputable def bn_new_w (scale variance : ℝ) : ℝ :=
  scale * bn_var_rsqrt variance

/-- `new_b = (- mean) * bn_var_rsqrt * scale + bias` (one channel). -/
noncomputable def bn_new_b (mean variance scale bias : ℝ) : ℝ :=
  (-mean) * bn_var_rsqrt variance * scale + bias

/-- Bias defaulting: `state_dict` entry when present, else
`np.zeros_like(mean)` (one channel). -/
noncomputable def bn_bias_default (b : Option ℝ) : ℝ :=
  b.getD 0

/-! ### The fusion pre-pass `fuse_all_conv_bn`

One recursion level of the module tree (the source applies the same logic
to each level).  `torch.nn.utils.fusion.fuse_conv_bn_eval` is an external
collaborator, abstracted as the parameter `fe` on the learned parameters. -/

/-- A child module as seen by `fuse_all_conv_bn`, with learned parameters
abstracted to `α`. -/
inductive Module (α : Type)
  | conv2d (w : α)
  | batchNorm2d (p : α)
  | identity
  | other (w : α)
deriving DecidableEq, Repr

/-- `isinstance(m, nn.BatchNorm2d)`. -/
def isBN {α : Type} : Module α → Bool
  | .batchNorm2d _ => true
  | _ => false

/-- `isinstance(m, nn.Conv2d)`. -/
def isConvM {α : Type} : Module α → Bool
  | .conv2d _ => true
  | _ => false

/-- `setattr(model, k, v)`: latest assignment wins on lookup. -/
def setUpd {α : Type} (u : List (String × Module α)) (k : String) (v : Module α) :
    List (String × Module α) :=
  (k, v) :: u

/-- Lookup of the latest assignment for `k`, if any. -/
def lookupUpd {α : Type} (u : List (String × Module α)) (k : String) :
    Option (Module α) :=
  (u.find? (fun p => p.1 == k)).map (fun p => p.2)

/-- The `named_children` loop of `fuse_all_conv_bn`: walk the declared
children in order carrying the `stack`; a `BatchNorm2d` with a stack whose
top entry holds a `Conv2d` (the *original* module object captured at push
time) triggers the two `setattr` calls; a `BatchNorm2d` is never pushed;
every other child is pushed.  Returns the accumulated `setattr`
assignments. -/
def fuseScan {α : Type} (fe : α → α → α) :
    List (String × Module α) → List (String × Module α) →
    List (String × Module α) → List (String × Module α)
  | [], _stack, upd => upd
  | (name, m) :: rest, stack, upd =>
    match m with
    | Module.batchNorm2d p =>
      match stack with
      | [] => fuseScan fe rest stack upd
      | (sn, sm) :: _ =>
        match sm with
        | Module.conv2d w =>
          fuseScan fe rest stack
            (setUpd (setUpd upd sn (Module.conv2d (fe w p))) name Module.identity)
        | _ => fuseScan fe rest stack upd
    | _ => fuseScan fe rest ((name, m) :: stack) upd

/-- Apply the accumulated `setattr` assignments to the declared children. -/
def applyUpdates {α : Type} (upd : List (String × Module α))
    (model : List (String × Module α)) : List (String × Module α) :=
  model.map (fun nm =>
    match lookupUpd upd nm.1 with
    | some m2 => (nm.1, m2)
    | none => nm)

/-- `fuse_all_conv_bn` on one module level. -/
def fuse_all_conv_bn {α : Type} (fe : α → α → α)
    (model : List (String × Module α)) : List (String × Module α) :=
  applyUpdates (fuseScan fe model [] []) model

/-- The nearest preceding non-BatchNorm sibling of position `i`, in
declaration order. -/
def precedingNonBN {α : Type} (model : List (String × Module α)) (i : Nat) :
    Option (String × Module α) :=
  ((model.take i).filter (fun q => !isBN q.2)).getLast?

/-- The fate `lookupUpd` assigns to a BatchNorm child given the stack at its
visit: fused (replaced by `identity`) exactly when the stack's top holds a
`Conv2d`. -/
def convTopFuse {α : Type} (stk : List (String × Module α)) : Option (Module α) :=
  match stk with
  | (_, Module.conv2d _) :: _ => some Module.identity
  | _ => none

/-! ### `rename_FullyConnected`, emission-level model

The TensorRT calls of `rename_FullyConnected` with their kernel arguments:
`W = state_dict[...].numpy().transpose()` is recorded through `set_weight`,
`_, output_channels = W.shape`, but the kernel handed to
`add_fully_connected` is the *untransposed* `weight`; a rank-4 input goes
straight to `add_fully_connected`, any other rank gets
`add_shuffle` (reshape to `shape + (1, 1)`), the dense multiply, and
`add_shuffle` back to `output_shape[1:]`. -/

/-- Cons-wise column builder used by the matrix transpose. -/
def zipCons {α : Type} : List α → List (List α) → List (List α)
  | [], yss => yss
  | x :: xs, [] => [x] :: zipCons xs []
  | x :: xs, ys :: yss => (x :: ys) :: zipCons xs yss

/-- numpy 2-D `transpose()`. -/
def matTranspose {α : Type} : List (List α) → List (List α)
  | [] => []
  | r :: rs => zipCons r (matTranspose rs)

/-- Column count of a 2-D array (`shape[1]`). -/
def numCols {α : Type} (m : List (List α)) : Nat :=
  (m.headD []).length

/-- A TensorRT layer created by `rename_FullyConnected`. -/
inductive FCEmit
  | shuffle (reshape_dims : List Int)
  | fullyConnected (num_outputs : Nat) (kernel : List (List Int))
deriving DecidableEq, Repr

/-- Trace of `rename_FullyConnected`: the weight recorded via `set_weight`,
`output_channels`, and the TensorRT layers created in order. -/
structure FCTrace where
  stored_W : List (List Int)
  output_channels : Nat
  emitted : List FCEmit
deriving DecidableEq, Repr

/-- `rename_FullyConnected`, emission-level: `weight` is the raw
`state_dict` tensor, `inputShape` the registered input layer's output
shape, `outShape` the node's static output shape. -/
def rename_FullyConnected_emit (weight : List (List Int)) (inputShape : List Int)
    (outShape : List Int) : FCTrace :=
  let W := matTranspose weight
  let output_channels := numCols W
  let kernel := weight
  if inputShape.length == 4 then
    { stored_W := W, output_channels := output_channels,
      emitted := [FCEmit.fullyConnected output_channels kernel] }
  else
    { stored_W := W, output_channels := output_channels,
      emitted := [FCEmit.shuffle (inputShape ++ [1, 1]),
                  FCEmit.fullyConnected output_channels kernel,
                  FCEmit.shuffle (outShape.drop 1)] }

/-! ### Concrete graphs, environments and modules used to evaluate the
definitions on explicit inputs -/

/-- Empty environment. -/
def cEnv0 : Env := { state_dict := [], output_layers := [] }

/-- Environment designating `"d"` as the model output. -/
def cEnvOutD : Env := { state_dict := [], output_layers := ["d"] }

/-- Environment designating an output name no routine ever registers. -/
def cEnvMiss : Env := { state_dict := [], output_layers := ["missing"] }

/-- A graph input node. -/
def cDataNode : Node :=
  { name := "d", real_name := "d", type := "Data", in_edges := [], attrs := [],
    output_shape := some [1], weights_name := "w" }

/-- Environment with the conv weight present and `"c"` designated as the
model output. -/
def cEnvConv : Env := { state_dict := ["cw.weight"], output_layers := ["c"] }

/-- A convolution node consuming the graph input (its input read is
isinstance-guarded, so the raw `ITensor` is accepted), with 2-element pads
and a weight-store entry. -/
def cConvNode : Node :=
  { name := "c", real_name := "c", type := "onnx::Conv", in_edges := ["d"],
    attrs := [("pads", AttrVal.ints [0, 0])], output_shape := some [1, 8, 4, 4],
    weights_name := "cw" }

/-- An elementwise `Mul` node fed by the conv layer whose second input
`"x"` has no producer. -/
def cMulCNode : Node :=
  { name := "m", real_name := "m", type := "onnx::Mul", in_edges := ["c", "x"],
    attrs := [], output_shape := some [1], weights_name := "w" }

/-- A node whose category `"onnx::Tanh"` has no `layer_map` entry. -/
def cTanhNode : Node :=
  { name := "u", real_name := "u", type := "onnx::Tanh", in_edges := ["d"],
    attrs := [], output_shape := some [1], weights_name := "w" }

/-- A node of category `"onnx::Dropout"`, mapped to `"Dropout"` which has no
registered routine. -/
def cDropoutNode : Node :=
  { name := "dr", real_name := "dr", type := "onnx::Dropout", in_edges := ["d"],
    attrs := [], output_shape := some [1], weights_name := "w" }

/-- A `Relu` node consuming the graph input. -/
def cReluDNode : Node :=
  { name := "r", real_name := "r", type := "onnx::Relu", in_edges := ["d"],
    attrs := [], output_shape := some [1], weights_name := "w" }

/-- A `Relu` node whose only input `"x"` is never materialized. -/
def cReluXNode : Node :=
  { name := "r", real_name := "r", type := "onnx::Relu", in_edges := ["x"],
    attrs := [], output_shape := some [1], weights_name := "w" }

/-- A `Relu` node whose only input is the output of `cReluXNode`. -/
def cRelu2Node : Node :=
  { name := "r2", real_name := "r2", type := "onnx::Relu", in_edges := ["r"],
    attrs := [], output_shape := some [1], weights_name := "w" }

/-- A resize node fed by the conv layer, with an unsupported
coordinate-transformation mode. -/
def cResizeCNode : Node :=
  { name := "rs", real_name := "rs", type := "onnx::Resize", in_edges := ["c"],
    attrs := [("scale_factor", AttrVal.ints [2]), ("mode", AttrVal.str "nearest"),
              ("coordinate_transformation_mode", AttrVal.str "align_corners"),
              ("nearest_mode", AttrVal.str "floor")],
    output_shape := none, weights_name := "w" }

/-- A max-pool node with `pads` but without `strides`/`kernel_shape`. -/
def cMaxPoolNode : Node :=
  { name := "mp", real_name := "mp", type := "onnx::MaxPool", in_edges := ["d"],
    attrs := [("pads", AttrVal.ints [0, 0])], output_shape := some [1],
    weights_name := "w" }

/-- A division node (`"onnx::Div"`). -/
def cDivNode : Node :=
  { name := "dv", real_name := "dv", type := "onnx::Div", in_edges := ["d", "d"],
    attrs := [], output_shape := some [1], weights_name := "w" }

/-- The parser state after translating `cDataNode`. -/
def cStateD : PState :=
  { mainTops := ["d"], namedLayer := [("d", TRTHandle.tensor [1])] }

/-- The parser state after translating `cDataNode` and `cConvNode`. -/
def cStateDC : PState :=
  { mainTops := ["d", "c"],
    namedLayer := [("d", TRTHandle.tensor [1]), ("c", TRTHandle.layer [1, 8, 4, 4])] }

/-- A module level declaring a conv followed by two batch norms. -/
def cModel0 : List (String × Module Int) :=
  [("c", Module.conv2d 1), ("b1", Module.batchNorm2d 2), ("b2", Module.batchNorm2d 3)]

/-- A concrete instantiation of the external fusion on learned parameters. -/
def cFe : Int → Int → Int := fun w p => 10 * w + p

/-! ## Helper lemmas about the walk -/

/-- A gated routine whose `is_main` guard fails returns `None` with the
state untouched. -/
theorem gr_skip {s : PState} {n : Node} {gate : List String}
    {body : Except PErr Unit} (h : is_main s.mainTops gate = false) :
    gatedRoutine s n gate body = .ok s := by
  simp [gatedRoutine, h]

/-- A gated routine either leaves `main_layers` unchanged or appends
exactly the node's own name. -/
theorem gr_state_tops (s : PState) (n : Node) (gate : List String)
    (body : Except PErr Unit) :
    (RRes.state (gatedRoutine s n gate body)).mainTops = s.mainTops ∨
      (RRes.state (gatedRoutine s n gate body)).mainTops = s.mainTops ++ [n.name] := by
  unfold gatedRoutine
  cases h : is_main s.mainTops gate with
  | false => simp [RRes.state]
  | true =>
    cases body with
    | ok u => simp [RRes.state, addLayer]
    | error e => simp [RRes.state]

/-- `rename_Flatten` also only ever appends the node's own name. -/
theorem flatten_state_tops (n : Node) (s : PState) :
    (RRes.state (rename_Flatten n s)).mainTops = s.mainTops ∨
      (RRes.state (rename_Flatten n s)).mainTops = s.mainTops ++ [n.name] := by
  unfold rename_Flatten
  cases h : is_main s.mainTops (n.in_edges.take 1) with
  | false => simp [RRes.state]
  | true =>
    simp only [h, if_true]
    cases (do
        let e0 ← getEdge n 0
        getNamedAny { s with mainTops := s.mainTops ++ [n.name] } e0 :
          Except PErr TRTHandle) with
    | ok h2 => right; rfl
    | error e => right; rfl

set_option maxHeartbeats 2000000 in
/-- One dispatch step appends at most the visited node's own name to
`main_layers`, whether it skips, succeeds or raises. -/
theorem dispatch_state_tops (env : Env) (n : Node) (s : PState) :
    (RRes.state (dispatch env n s)).mainTops = s.mainTops ∨
      (RRes.state (dispatch env n s)).mainTops = s.mainTops ++ [n.name] := by
  unfold dispatch
  cases lookupLayerMap n.type with
  | none => left; rfl
  | some nt =>
    show (RRes.state (renameDispatch env nt n s)).mainTops = s.mainTops ∨
      (RRes.state (renameDispatch env nt n s)).mainTops = s.mainTops ++ [n.name]
    unfold renameDispatch
    cases hf : (renameRoutines.find? (fun p => p.1 == nt)).map (fun p => p.2) with
    | none => left; rfl
    | some f =>
      obtain ⟨p, hp, rfl⟩ := Option.map_eq_some'.mp hf
      have hmem := List.mem_of_find?_eq_some hp
      simp only [renameRoutines] at hmem
      fin_cases hmem <;>
        first
          | exact gr_state_tops s n _ _
          | (left; rfl)
          | (right; rfl)
          | exact flatten_state_tops n s

/-- Splitting the walk at an exception-free prefix. -/
theorem walkAux_append (env : Env) (a b : List Node) (s t : PState)
    (h : walkAux env a s = (t, none)) :
    walkAux env (a ++ b) s = walkAux env b t := by
  induction a generalizing s with
  | nil =>
    simp only [walkAux, Prod.mk.injEq] at h
    rw [List.nil_append, h.1]
  | cons n rest ih =>
    rw [List.cons_append]
    cases hd : dispatch env n s with
    | ok s1 =>
      simp only [walkAux, hd] at h ⊢
      exact ih s1 h
    | err e s1 =>
      simp only [walkAux, hd] at h
      simp at h

/-- A name produced by no node of the remaining walk and absent from
`main_layers` never appears in `main_layers`. -/
theorem walk_not_mem (env : Env) (x : String) :
    ∀ (nodes : List Node) (s : PState), x ∉ s.mainTops →
      (∀ n ∈ nodes, n.name ≠ x) →
      x ∉ ((walkAux env nodes s).1).mainTops := by
  intro nodes
  induction nodes with
  | nil =>
    intro s hx _
    simpa [walkAux] using hx
  | cons n rest ih =>
    intro s hx hall
    have hxn : n.name ≠ x := hall n (by simp)
    have hstep : x ∉ (RRes.state (dispatch env n s)).mainTops := by
      rcases dispatch_state_tops env n s with h | h
      · rw [h]; exact hx
      · rw [h]
        intro hmem
        rcases List.mem_append.mp hmem with h1 | h1
        · exact hx h1
        · simp only [List.mem_singleton] at h1
          exact hxn h1.symm
    unfold walkAux
    cases hd : dispatch env n s with
    | ok s1 =>
      rw [hd] at hstep
      simp only [walkAux, hd]
      exact ih s1 hstep (fun m hm => hall m (List.mem_cons_of_mem _ hm))
    | err e s1 =>
      rw [hd] at hstep
      simp only [walkAux, hd]
      exact hstep

/-- `is_main` fails whenever one of the inspected inputs is missing. -/
theorem is_main_false_of {tops inputs : List String} {x : String}
    (hx : x ∈ inputs) (hnx : x ∉ tops) : is_main tops inputs = false := by
  unfold is_main
  rw [List.all_eq_false]
  refine ⟨x, hx, ?_⟩
  intro h
  rw [List.any_eq_true] at h
  rcases h with ⟨t, ht, heq⟩
  rw [beq_iff_eq] at heq
  exact hnx (heq ▸ ht)

/-- A successful attribute read implies key membership. -/
theorem hasAttrKey_of_getAttr {n : Node} {k : String} {v : AttrVal}
    (h : getAttr n k = .ok v) : hasAttrKey n k = true := by
  unfold getAttr at h
  unfold hasAttrKey
  cases ho : getAttrOpt n k with
  | none => rw [ho] at h; exact absurd h (by simp)
  | some u => simp [ho]

/-- A gated routine with a failed gate skips: dispatch-level version, for
every gated target category. -/
theorem dispatch_skip_of_gate_false {env : Env} {n : Node} {s : PState}
    {nt : String} (hlk : lookupLayerMap n.type = some nt) (hnt : nt ∈ gatedNts)
    (hgate : is_main s.mainTops (gateSlice nt n) = false) :
    dispatch env n s = .ok s := by
  unfold dispatch
  rw [hlk]
  simp only [gatedNts] at hnt
  fin_cases hnt <;>
    first
      | exact gr_skip hgate
      | (show rename_Flatten n s = RRes.ok s
         unfold rename_Flatten
         rw [show is_main s.mainTops (n.in_edges.take 1) = false from hgate]
         rfl)

/-- Bind reduction for a successful `Except` step. -/
theorem exceptBind_ok {α β : Type} (a : α) (f : α → Except PErr β) :
    (Except.ok a >>= f : Except PErr β) = f a := rfl

/-- Bind reduction for a failed `Except` step. -/
theorem exceptBind_err {α β : Type} (e : PErr) (f : α → Except PErr β) :
    (Except.error e >>= f : Except PErr β) = Except.error e := rfl

/-- `throw` is `Except.error`. -/
theorem exceptThrow {β : Type} (e : PErr) :
    (throw e : Except PErr β) = Except.error e := rfl

/-- `pure` is `Except.ok`. -/
theorem exceptPure {β : Type} (b : β) :
    (pure b : Except PErr β) = Except.ok b := rfl

/-! ## Claim theorems -/

/-- C4: for every batch-normalization node translated without prior fusion,
the emitted per-channel affine has scale `weight / sqrt(running_var + eps)`
and shift `-running_mean * weight / sqrt(running_var + eps) + bias`, with
`eps = 1e-5`, and the bias defaults to zero when absent from the weight
store.  This matches the source computation
`new_w = scale * (1 / sqrt(var + 1e-05))`,
`new_b = (-mean) * (1 / sqrt(var + 1e-05)) * scale + bias` exactly. -/
theorem C4_bn_fold (w m v b : ℝ) :
    bn_new_w w v = w / Real.sqrt (v + 1e-5) ∧
    bn_new_b m v w b = -(m * w) / Real.sqrt (v + 1e-5) + b ∧
    bn_bias_default none = 0 ∧ bn_bias_default (some b) = b := by
  refine ⟨?_, ?_, rfl, rfl⟩
  · unfold bn_new_w bn_var_rsqrt
    ring
  · unfold bn_new_b bn_var_rsqrt
    ring

/-- C7: convolution and deconvolution accept `pads` in 2-element or
4-element form; a 4-element list is reduced to its first two values, so the
last two per-side values never affect the emitted layer: `conv_pads` (the
padding computation shared by `rename_Conv` and `rename_ConvTranspose`)
yields `some (top, left)` for both forms, and the full routines are
invariant under changing the last two entries. -/
theorem C7_pads_reduction (env : Env) (nm rn ty wn : String)
    (edges : List String) (ats : List (String × AttrVal))
    (os : Option (List Int)) (a b c d c2 d2 : Int) (s : PState) :
    conv_pads [a, b, c, d] = some (a, b) ∧
    conv_pads [a, b] = some (a, b) ∧
    rename_Conv env
        { name := nm, real_name := rn, type := ty, in_edges := edges,
          attrs := ("pads", AttrVal.ints [a, b, c, d]) :: ats,
          output_shape := os, weights_name := wn } s =
      rename_Conv env
        { name := nm, real_name := rn, type := ty, in_edges := edges,
          attrs := ("pads", AttrVal.ints [a, b, c2, d2]) :: ats,
          output_shape := os, weights_name := wn } s ∧
    rename_ConvTranspose env
        { name := nm, real_name := rn, type := ty, in_edges := edges,
          attrs := ("pads", AttrVal.ints [a, b, c, d]) :: ats,
          output_shape := os, weights_name := wn } s =
      rename_ConvTranspose env
        { name := nm, real_name := rn, type := ty, in_edges := edges,
          attrs := ("pads", AttrVal.ints [a, b, c2, d2]) :: ats,
          output_shape := os, weights_name := wn } s := by
  exact ⟨rfl, rfl, rfl, rfl⟩

/-- C9: `layer_map` maps `"onnx::Div"` to `"Common"`, so a division node is
dispatched to the skip-with-warning routine and produces no target object
(state unchanged); and no category at all maps to `"Div"`, so the dedicated
`rename_Div` routine is unreachable through dispatch. -/
theorem C9_div_dispatch :
    lookupLayerMap "onnx::Div" = some "Common" ∧
    (∀ (env : Env) (n : Node) (s : PState), n.type = "onnx::Div" →
      dispatch env n s = .ok s) ∧
    (∀ k v, lookupLayerMap k = some v → v ≠ "Div") := by
  refine ⟨rfl, ?_, ?_⟩
  · intro env n s hty
    unfold dispatch
    rw [hty]
    rfl
  · intro k v h hdiv
    subst hdiv
    unfold lookupLayerMap at h
    obtain ⟨p, hp, hpe⟩ := Option.map_eq_some'.mp h
    have hmem := List.mem_of_find?_eq_some hp
    have hall : ∀ q ∈ layer_map, q.2 ≠ "Div" := by decide
    exact hall p hmem hpe

/-- C9 witness: a concrete `onnx::Div` node is skipped with the state
unchanged. -/
theorem C9_div_dispatch_witness :
    dispatch cEnv0 cDivNode initState = RRes.ok initState :=
  C9_div_dispatch.2.1 cEnv0 cDivNode initState rfl

/-- The `mark_output` loop fails (with *some* uncaught exception) whenever
one of the designated outputs has no `named_layer` binding: either the
KeyError at that name is reached, or an earlier output already raised. -/
theorem markOutputs_error (s : PState) :
    ∀ (outs : List String) (o : String), o ∈ outs →
      (∀ p ∈ s.namedLayer, p.1 ≠ o) →
      ∃ e, markOutputs s outs = Except.error e := by
  intro outs
  induction outs with
  | nil =>
    intro o ho
    simp at ho
  | cons a rest ih =>
    intro o ho hmiss
    cases hf : (s.namedLayer.find? (fun p => p.1 == a)).map (fun p => p.2) with
    | none =>
      refine ⟨PErr.keyError a, ?_⟩
      unfold markOutputs
      rw [hf]
    | some h =>
      cases h with
      | tensor shp =>
        refine ⟨PErr.attributeError, ?_⟩
        unfold markOutputs
        rw [hf]
      | layer shp =>
        have hne : o ≠ a := by
          intro he
          subst he
          obtain ⟨p, hp, hpe⟩ := Option.map_eq_some'.mp hf
          have hm := List.mem_of_find?_eq_some hp
          have hpa := List.find?_some hp
          rw [beq_iff_eq] at hpa
          exact hmiss p hm hpa
        have ho2 : o ∈ rest := by
          rcases List.mem_cons.mp ho with he | hr
          · exact absurd he hne
          · exact hr
        have hstep : markOutputs s (a :: rest) = markOutputs s rest := by
          conv_lhs => unfold markOutputs
          rw [hf]
        rw [hstep]
        exact ih o ho2 hmiss

/-- C8: at finalization every designated output must have a materialized
layer; a designated output absent from `named_layer` makes the
`mark_output` loop raise an uncaught exception (the KeyError at that name,
or an earlier output's failure), so the plan is never built (the engine
outcome is an error, not success). -/
theorem C8_missing_output_fatal (env : Env) (nodes : List Node) (o : String)
    (ho : o ∈ env.output_layers)
    (hmiss : ∀ p ∈ ((walkAux env nodes initState).1).namedLayer, p.1 ≠ o) :
    ∃ e, (gen_IR env nodes).engine = Except.error e := by
  have hrfl : (gen_IR env nodes).engine =
      markOutputs ((walkAux env nodes initState).1) env.output_layers := rfl
  rw [hrfl]
  exact markOutputs_error ((walkAux env nodes initState).1) env.output_layers o ho hmiss

/-- C8 witness: a designated output `"missing"` that no routine registers
makes finalization fail. -/
theorem C8_missing_output_fatal_witness :
    ∃ e, (gen_IR cEnvMiss [cDataNode]).engine = Except.error e :=
  C8_missing_output_fatal cEnvMiss [cDataNode] "missing" (by decide) (by decide)

/-- C10: a max-pooling node that passes the reachability gate and carries a
`pads` attribute but lacks `strides` or `kernel_shape` makes the routine
reference the local `layer` before assignment (UnboundLocalError) instead
of applying a default; the routine returns a registered layer only when
both attributes are present. -/
theorem C10_maxpool_unbound (n : Node) (s : PState) (pl : List Int)
    (hgate : is_main s.mainTops (n.in_edges.take 1) = true)
    (hpads : getAttr n "pads" = .ok (.ints pl)) :
    ((hasAttrKey n "strides" = false ∨ hasAttrKey n "kernel_shape" = false) →
      rename_MaxPool n s = .err (.unboundLocal "layer") s) ∧
    (∀ s2, rename_MaxPool n s = .ok s2 →
      hasAttrKey n "strides" = true ∧ hasAttrKey n "kernel_shape" = true) := by
  have hfail : (hasAttrKey n "strides" = false ∨ hasAttrKey n "kernel_shape" = false) →
      rename_MaxPool n s = .err (.unboundLocal "layer") s := by
    intro h
    unfold rename_MaxPool gatedRoutine
    rw [hgate]
    have hb : maxPoolBody n s = Except.error (PErr.unboundLocal "layer") := by
      unfold maxPoolBody
      rw [hpads]
      rcases h with h | h
      · simp [h, exceptBind_ok, exceptThrow]
      · cases hst : hasAttrKey n "strides" with
        | false => simp [hst, exceptBind_ok, exceptThrow]
        | true => simp [hst, h, exceptBind_ok, exceptThrow]
    rw [hb]
    rfl
  refine ⟨hfail, ?_⟩
  intro s2 hok
  cases hst : hasAttrKey n "strides" with
  | false =>
    rw [hfail (Or.inl hst)] at hok
    exact absurd hok (by simp)
  | true =>
    cases hker : hasAttrKey n "kernel_shape" with
    | false =>
      rw [hfail (Or.inr hker)] at hok
      exact absurd hok (by simp)
    | true => exact ⟨rfl, rfl⟩

/-- C10 witness: a concrete max-pool node with `pads` but no `strides`
raises the unbound-local error. -/
theorem C10_maxpool_unbound_witness :
    rename_MaxPool cMaxPoolNode cStateD = .err (.unboundLocal "layer") cStateD :=
  (C10_maxpool_unbound cMaxPoolNode cStateD [0, 0] rfl rfl).1 (Or.inl rfl)

/-- C2 counterexample: the claim says a node whose category has no entry in
the lookup table is skipped with a warning and the walk continues over all
remaining nodes.  On the code, `layer_map[...]` raises a KeyError inside
the `try`, which aborts the walk: in `[data, tanh, relu]` the relu node
(whose input `"d"` is materialized and which would otherwise translate) is
never visited — the final layer list contains only `"d"` and the walk ends
with the KeyError. -/
theorem C2_counterexample :
    walkAux cEnv0 [cDataNode, cTanhNode, cReluDNode] initState =
      ({ mainTops := ["d"], namedLayer := [("d", TRTHandle.tensor [1])] },
        some (PErr.keyError "onnx::Tanh")) := by
  rfl

/-- C2 amended: a *mapped* category with no registered translation routine
is skipped via `rename_Common` (state unchanged) and the walk continues;
but a category with no `layer_map` entry raises a KeyError that aborts the
walk over all remaining nodes (the exception is caught outside the loop). -/
theorem C2_amended (env : Env) (n m : Node) (rest : List Node) (s : PState)
    (ntm : String)
    (hn : lookupLayerMap n.type = none)
    (hm : lookupLayerMap m.type = some ntm)
    (hnort : ntm ∈ noRoutineNts) :
    dispatch env n s = .err (.keyError n.type) s ∧
    walkAux env (n :: rest) s = (s, some (.keyError n.type)) ∧
    dispatch env m s = .ok s ∧
    walkAux env (m :: rest) s = walkAux env rest s := by
  have h1 : dispatch env n s = .err (.keyError n.type) s := by
    unfold dispatch
    rw [hn]
  have h3 : dispatch env m s = .ok s := by
    unfold dispatch
    rw [hm]
    simp only [noRoutineNts] at hnort
    fin_cases hnort <;> rfl
  refine ⟨h1, ?_, h3, ?_⟩
  · simp only [walkAux, h1]
  · simp only [walkAux, h3]

/-- C2 witness: concrete unknown category `"onnx::Tanh"` aborts, concrete
routine-less category `"onnx::Dropout"` is skipped and the walk goes on. -/
theorem C2_amended_witness :
    dispatch cEnv0 cTanhNode initState = .err (.keyError "onnx::Tanh") initState ∧
    dispatch cEnv0 cDropoutNode initState = .ok initState := by
  have h := C2_amended cEnv0 cTanhNode cDropoutNode [] initState "Dropout"
    rfl rfl (by decide)
  exact ⟨h.1, h.2.2.1⟩

/-- C3 counterexample: the claim says an unsupported resize
coordinate-transformation mode makes the entire translation abort with no
artifact produced.  On the code the bare `raise` is caught by the walk's
`except`: in the graph `[data d, conv c(d), bad-resize rs(c)]` with
designated output `"c"` (an `ILayer`, so `mark_output` succeeds on it),
the debug artifact is still written (containing the data and conv layers)
and finalization still succeeds, producing the engine. -/
theorem C3_counterexample :
    gen_IR cEnvConv [cDataNode, cConvNode, cResizeCNode] =
      { debugTops := ["d", "c"], walkError := some PErr.bareRaise,
        engine := Except.ok () } := by
  rfl

/-- C3 amended: a resize node (gate passed, attributes readable) whose
coordinate-transformation mode is neither `"pytorch_half_pixel"` nor
`"asymmetric"` raises (`bareRaise`), the walk aborts at that node leaving
the remaining nodes unvisited, but `gen_IR` still writes the debug
artifact accumulated so far and still runs finalization — artifacts can
still be produced. -/
theorem C3_amended (env : Env) (pre rest : List Node) (n : Node) (sn : PState)
    (e0 : String) (shp : List Int) (sf : Int) (sftail : List Int)
    (mode ctm : String)
    (hpre : walkAux env pre initState = (sn, none))
    (hty : n.type = "onnx::Resize")
    (hgate : is_main sn.mainTops (n.in_edges.take 1) = true)
    (he0 : getEdge n 0 = .ok e0)
    (hnm : getNamed sn e0 = .ok shp)
    (hsf : getAttr n "scale_factor" = .ok (.ints (sf :: sftail)))
    (hmode : getAttr n "mode" = .ok (.str mode))
    (hctm : getAttr n "coordinate_transformation_mode" = .ok (.str ctm))
    (hc1 : ctm ≠ "pytorch_half_pixel") (hc2 : ctm ≠ "asymmetric") :
    rename_Resize n sn = .err .bareRaise sn ∧
    walkAux env (pre ++ n :: rest) initState = (sn, some PErr.bareRaise) ∧
    gen_IR env (pre ++ n :: rest) =
      { debugTops := sn.mainTops.map stripDots,
        walkError := some PErr.bareRaise,
        engine := finalize env sn } := by
  have hhas : hasAttrKey n "scale_factor" = true := hasAttrKey_of_getAttr hsf
  have hb1 : attrStrEq (AttrVal.str ctm) "pytorch_half_pixel" = false := by
    simp [attrStrEq, hc1]
  have hb2 : attrStrEq (AttrVal.str ctm) "asymmetric" = false := by
    simp [attrStrEq, hc2]
  have hbody : resizeBody n sn = Except.error PErr.bareRaise := by
    unfold resizeBody
    rw [he0]
    simp only [exceptBind_ok]
    rw [hnm]
    simp only [exceptBind_ok, exceptBind_err, hhas, if_true, hsf, hmode, hctm,
      hb1, hb2, exceptThrow, exceptPure, getIdx, List.get?,
      Bool.false_eq_true, if_false]
  have hres : rename_Resize n sn = .err PErr.bareRaise sn := by
    unfold rename_Resize gatedRoutine
    rw [hgate, hbody]
    rfl
  have hd : dispatch env n sn = .err PErr.bareRaise sn := by
    unfold dispatch
    rw [hty]
    rw [show lookupLayerMap "onnx::Resize" = some "Resize" from rfl]
    exact hres
  have hwalk : walkAux env (pre ++ n :: rest) initState = (sn, some PErr.bareRaise) := by
    rw [walkAux_append env pre (n :: rest) initState sn hpre]
    simp only [walkAux, hd]
  refine ⟨hres, hwalk, ?_⟩
  show ({ debugTops := ((walkAux env (pre ++ n :: rest) initState).1).mainTops.map stripDots,
          walkError := (walkAux env (pre ++ n :: rest) initState).2,
          engine := finalize env ((walkAux env (pre ++ n :: rest) initState).1) } : GenIR) = _
  rw [hwalk]

/-- C3 witness: the concrete conv-fed bad-resize graph instantiates every
hypothesis of the amended claim. -/
theorem C3_amended_witness :
    rename_Resize cResizeCNode cStateDC = .err .bareRaise cStateDC :=
  (C3_amended cEnvConv [cDataNode, cConvNode] [] cResizeCNode cStateDC "c"
    [1, 8, 4, 4] 2 [] "nearest" "align_corners" rfl rfl rfl rfl rfl rfl rfl
    rfl (by decide) (by decide)).1

/-- C1 counterexample: the claim says that whenever any required input of a
node is missing from the reachability set, the node is skipped *without
raising*.  On the code, `rename_Mul` gates only `in_edges[0:1]`: in the
graph `[data d, conv c(d), mul m(c, x)]` the Mul node's first input `"c"`
is materialized (an `ILayer`, so its `get_output(0)` succeeds) while `"x"`
is not; the routine runs past the gate and `named_layer["x"]` raises a
KeyError, aborting the walk instead of skipping the node. -/
theorem C1_counterexample :
    walkAux cEnvConv [cDataNode, cConvNode, cMulCNode] initState =
      (cStateDC, some (PErr.keyError "x")) := by
  rfl

/-- C1 amended: the reachability gate covers only each routine's gated
input slice (`in_edges[0:1]` for most routines, `[0:2]` for Add/Div, all
inputs for Concat/Permute).  When a *gated* input is missing the node is
skipped without raising and with the state unchanged, its output name is
never materialized for the rest of the walk (given unique node names), and
any later node whose gated slice contains that output is skipped in turn —
iterating this theorem yields the transitive-closure cascade.  (A missing
non-gated input instead raises, see the counterexample.) -/
theorem C1_amended (env : Env) (pre rest : List Node) (n : Node) (sn : PState)
    (nt : String)
    (hpre : walkAux env pre initState = (sn, none))
    (hlk : lookupLayerMap n.type = some nt)
    (hnt : nt ∈ gatedNts)
    (hgate : is_main sn.mainTops (gateSlice nt n) = false)
    (hself : n.name ∉ sn.mainTops)
    (hrest : ∀ m ∈ rest, m.name ≠ n.name) :
    dispatch env n sn = .ok sn ∧
    walkAux env (pre ++ n :: rest) initState = walkAux env rest sn ∧
    n.name ∉ ((walkAux env rest sn).1).mainTops ∧
    (∀ rest1 m rest2 t ntm, rest = rest1 ++ m :: rest2 →
      walkAux env rest1 sn = (t, none) →
      lookupLayerMap m.type = some ntm → ntm ∈ gatedNts →
      n.name ∈ gateSlice ntm m →
      dispatch env m t = .ok t) := by
  have h1 : dispatch env n sn = .ok sn := dispatch_skip_of_gate_false hlk hnt hgate
  have h2 : walkAux env (pre ++ n :: rest) initState = walkAux env rest sn := by
    rw [walkAux_append env pre (n :: rest) initState sn hpre]
    simp only [walkAux, h1]
  have h3 : n.name ∉ ((walkAux env rest sn).1).mainTops :=
    walk_not_mem env n.name rest sn hself hrest
  refine ⟨h1, h2, h3, ?_⟩
  intro rest1 m rest2 t ntm hr hw hlkm hntm hin
  have hnotin : n.name ∉ t.mainTops := by
    have hm := walk_not_mem env n.name rest1 sn hself
      (fun q hq => hrest q (by rw [hr]; exact List.mem_append_left _ hq))
    rw [hw] at hm
    exact hm
  exact dispatch_skip_of_gate_false hlkm hntm (is_main_false_of hin hnotin)

/-- C1 witness: a relu node whose gated input `"x"` is missing is skipped
with the state unchanged; its downstream consumer is skipped in turn. -/
theorem C1_amended_witness :
    dispatch cEnv0 cReluXNode cStateD = .ok cStateD :=
  (C1_amended cEnv0 [cDataNode] [cRelu2Node] cReluXNode cStateD "Relu"
    rfl rfl (by decide) rfl (by decide) (by decide)).1

/-- C6 counterexample: the claim says the learned weight is transposed
before the dense multiply and that a reshape is inserted when the input
still has spatial dimensions.  On the code, with a rank-4 input
(`[1, 2, 1, 1]`) the routine emits exactly one `add_fully_connected` call
with the *untransposed* kernel and no reshape at all (the transposed `W`
only goes to the debug weight store). -/
theorem C6_counterexample :
    (rename_FullyConnected_emit [[1, 2], [3, 4], [5, 6]] [1, 2, 1, 1] [1, 3]).emitted =
      [FCEmit.fullyConnected 3 [[1, 2], [3, 4], [5, 6]]] ∧
    matTranspose [[1, 2], [3, 4], [5, 6]] ≠ [[1, 2], [3, 4], [5, 6]] := by
  exact ⟨rfl, by decide⟩

/-- C6 amended: the transposed weight is only recorded in the debug weight
store (`set_weight`); the kernel handed to every `add_fully_connected`
call is the untransposed weight.  The reshape pair is inserted exactly when
the input rank is *not* 4 — a reshape appending trailing unit spatial
dimensions before the dense multiply and a reshape to the node's static
output shape (first axis dropped) after it; a rank-4 input goes straight to
the dense multiply. -/
theorem C6_amended (weight : List (List Int)) (ins outs : List Int) :
    (rename_FullyConnected_emit weight ins outs).stored_W = matTranspose weight ∧
    (rename_FullyConnected_emit weight ins outs).emitted =
      (if ins.length == 4 then
        [FCEmit.fullyConnected (numCols (matTranspose weight)) weight]
      else
        [FCEmit.shuffle (ins ++ [1, 1]),
         FCEmit.fullyConnected (numCols (matTranspose weight)) weight,
         FCEmit.shuffle (outs.drop 1)]) := by
  unfold rename_FullyConnected_emit
  cases h : ins.length == 4 <;> simp [h]

/-! ## Lemmas about the fusion pre-pass -/

/-- Lookup after an assignment to a different key. -/
theorem lookupUpd_setUpd_ne {α : Type} (u : List (String × Module α))
    (k x : String) (v : Module α) (h : ¬(k = x)) :
    lookupUpd (setUpd u k v) x = lookupUpd u x := by
  unfold lookupUpd setUpd
  rw [List.find?_cons_of_neg _ (by simp [h])]

/-- Lookup after an assignment to the same key. -/
theorem lookupUpd_setUpd_eq {α : Type} (u : List (String × Module α))
    (k : String) (v : Module α) :
    lookupUpd (setUpd u k v) k = some v := by
  unfold lookupUpd setUpd
  rw [List.find?_cons_of_pos _ (by simp)]
  rfl

/-- Names neither among the remaining children nor on the stack are never
assigned by the scan. -/
theorem fuseScan_untouched {α : Type} (fe : α → α → α) :
    ∀ (l stack upd : List (String × Module α)) (x : String),
      x ∉ l.map Prod.fst → x ∉ stack.map Prod.fst →
      lookupUpd (fuseScan fe l stack upd) x = lookupUpd upd x := by
  intro l
  induction l with
  | nil => intro stack upd x _ _; rfl
  | cons hd rest ih =>
    rintro stack upd x hxl hxs
    obtain ⟨name, m⟩ := hd
    have hxname : ¬(name = x) := by
      intro he
      exact hxl (by simp [he])
    have hxrest : x ∉ rest.map Prod.fst := by
      intro hm
      exact hxl (by simp [hm])
    cases m with
    | batchNorm2d p =>
      cases stack with
      | nil =>
        show lookupUpd (fuseScan fe rest [] upd) x = lookupUpd upd x
        exact ih [] upd x hxrest hxs
      | cons shd stail =>
        obtain ⟨sn, sm⟩ := shd
        have hxsn : ¬(sn = x) := by
          intro he
          exact hxs (by simp [he])
        cases sm with
        | conv2d w =>
          show lookupUpd (fuseScan fe rest ((sn, Module.conv2d w) :: stail)
              (setUpd (setUpd upd sn (Module.conv2d (fe w p))) name Module.identity)) x
            = lookupUpd upd x
          rw [ih _ _ x hxrest hxs, lookupUpd_setUpd_ne _ _ _ _ hxname,
            lookupUpd_setUpd_ne _ _ _ _ hxsn]
        | batchNorm2d q =>
          show lookupUpd (fuseScan fe rest ((sn, Module.batchNorm2d q) :: stail) upd) x
            = lookupUpd upd x
          exact ih _ upd x hxrest hxs
        | identity =>
          show lookupUpd (fuseScan fe rest ((sn, Module.identity) :: stail) upd) x
            = lookupUpd upd x
          exact ih _ upd x hxrest hxs
        | other w =>
          show lookupUpd (fuseScan fe rest ((sn, Module.other w) :: stail) upd) x
            = lookupUpd upd x
          exact ih _ upd x hxrest hxs
    | conv2d w =>
      show lookupUpd (fuseScan fe rest ((name, Module.conv2d w) :: stack) upd) x
        = lookupUpd upd x
      refine ih _ upd x hxrest ?_
      intro hmem
      rw [List.map_cons] at hmem
      rcases List.mem_cons.mp hmem with heq | hm
      · exact hxname heq.symm
      · exact hxs hm
    | identity =>
      show lookupUpd (fuseScan fe rest ((name, Module.identity) :: stack) upd) x
        = lookupUpd upd x
      refine ih _ upd x hxrest ?_
      intro hmem
      rw [List.map_cons] at hmem
      rcases List.mem_cons.mp hmem with heq | hm
      · exact hxname heq.symm
      · exact hxs hm
    | other w =>
      show lookupUpd (fuseScan fe rest ((name, Module.other w) :: stack) upd) x
        = lookupUpd upd x
      refine ih _ upd x hxrest ?_
      intro hmem
      rw [List.map_cons] at hmem
      rcases List.mem_cons.mp hmem with heq | hm
      · exact hxname heq.symm
      · exact hxs hm

/-- The fate the scan assigns to the BatchNorm child at position `i`:
replaced by `identity` exactly when a conv sits on top of the stack at its
visit, i.e. when the nearest preceding non-BatchNorm entry (within the
walked prefix, else the incoming stack) is a conv. -/
theorem fuseScan_lookup {α : Type} (fe : α → α → α) :
    ∀ (l : List (String × Module α)) (stack upd : List (String × Module α))
      (i : Nat) (bname : String) (p : α),
      l.get? i = some (bname, Module.batchNorm2d p) →
      (l.map Prod.fst).Nodup →
      bname ∉ stack.map Prod.fst →
      lookupUpd upd bname = none →
      lookupUpd (fuseScan fe l stack upd) bname =
        convTopFuse (((l.take i).filter (fun q => !isBN q.2)).reverse ++ stack) := by
  intro l
  induction l with
  | nil =>
    intro stack upd i bname p hget
    simp at hget
  | cons hd rest ih =>
    intro stack upd i bname p hget hnd hbs hbu
    obtain ⟨name, m⟩ := hd
    rw [List.map_cons, List.nodup_cons] at hnd
    obtain ⟨hname_nin, hnd2⟩ := hnd
    cases i with
    | zero =>
      rw [List.get?_cons_zero] at hget
      injection hget with hget
      have h1 : name = bname := congrArg Prod.fst hget
      have h2 : m = Module.batchNorm2d p := congrArg Prod.snd hget
      subst h1
      subst h2
      rw [List.take_zero, List.filter_nil, List.reverse_nil, List.nil_append]
      cases stack with
      | nil =>
        show lookupUpd (fuseScan fe rest [] upd) name = convTopFuse []
        rw [fuseScan_untouched fe rest [] upd name hname_nin (by simp), hbu]
        rfl
      | cons shd stail =>
        obtain ⟨sn, sm⟩ := shd
        have hsn_ne : ¬(sn = name) := by
          intro he
          exact hbs (by simp [he])
        cases sm with
        | conv2d w =>
          show lookupUpd (fuseScan fe rest ((sn, Module.conv2d w) :: stail)
              (setUpd (setUpd upd sn (Module.conv2d (fe w p))) name Module.identity)) name
            = convTopFuse ((sn, Module.conv2d w) :: stail)
          rw [fuseScan_untouched fe rest _ _ name hname_nin hbs,
            lookupUpd_setUpd_eq]
          rfl
        | batchNorm2d q =>
          show lookupUpd (fuseScan fe rest ((sn, Module.batchNorm2d q) :: stail) upd) name
            = convTopFuse ((sn, Module.batchNorm2d q) :: stail)
          rw [fuseScan_untouched fe rest _ upd name hname_nin hbs, hbu]
          rfl
        | identity =>
          show lookupUpd (fuseScan fe rest ((sn, Module.identity) :: stail) upd) name
            = convTopFuse ((sn, Module.identity) :: stail)
          rw [fuseScan_untouched fe rest _ upd name hname_nin hbs, hbu]
          rfl
        | other w =>
          show lookupUpd (fuseScan fe rest ((sn, Module.other w) :: stail) upd) name
            = convTopFuse ((sn, Module.other w) :: stail)
          rw [fuseScan_untouched fe rest _ upd name hname_nin hbs, hbu]
          rfl
    | succ j =>
      rw [List.get?_cons_succ] at hget
      have hbname_mem : bname ∈ rest.map Prod.fst :=
        List.mem_map.mpr ⟨_, List.get?_mem hget, rfl⟩
      have hname_ne : ¬(name = bname) := fun he => hname_nin (he ▸ hbname_mem)
      rw [List.take_succ_cons]
      cases m with
      | batchNorm2d q =>
        rw [List.filter_cons_of_neg (by simp [isBN])]
        cases stack with
        | nil =>
          show lookupUpd (fuseScan fe rest [] upd) bname = _
          exact ih [] upd j bname p hget hnd2 (by simp) hbu
        | cons shd stail =>
          obtain ⟨sn, sm⟩ := shd
          have hsn_ne : ¬(sn = bname) := by
            intro he
            exact hbs (by simp [he])
          cases sm with
          | conv2d w =>
            show lookupUpd (fuseScan fe rest ((sn, Module.conv2d w) :: stail)
                (setUpd (setUpd upd sn (Module.conv2d (fe w q))) name Module.identity)) bname
              = _
            refine ih _ _ j bname p hget hnd2 hbs ?_
            rw [lookupUpd_setUpd_ne _ _ _ _ hname_ne,
              lookupUpd_setUpd_ne _ _ _ _ hsn_ne]
            exact hbu
          | batchNorm2d q2 =>
            show lookupUpd (fuseScan fe rest ((sn, Module.batchNorm2d q2) :: stail) upd) bname
              = _
            exact ih _ upd j bname p hget hnd2 hbs hbu
          | identity =>
            show lookupUpd (fuseScan fe rest ((sn, Module.identity) :: stail) upd) bname
              = _
            exact ih _ upd j bname p hget hnd2 hbs hbu
          | other w =>
            show lookupUpd (fuseScan fe rest ((sn, Module.other w) :: stail) upd) bname
              = _
            exact ih _ upd j bname p hget hnd2 hbs hbu
      | conv2d w =>
        rw [List.filter_cons_of_pos (by simp [isBN]), List.reverse_cons,
          List.append_assoc, List.singleton_append]
        show lookupUpd (fuseScan fe rest ((name, Module.conv2d w) :: stack) upd) bname = _
        refine ih _ upd j bname p hget hnd2 ?_ hbu
        intro hmem
        rw [List.map_cons] at hmem
        rcases List.mem_cons.mp hmem with heq | hm
        · exact hname_ne heq.symm
        · exact hbs hm
      | identity =>
        rw [List.filter_cons_of_pos (by simp [isBN]), List.reverse_cons,
          List.append_assoc, List.singleton_append]
        show lookupUpd (fuseScan fe rest ((name, Module.identity) :: stack) upd) bname = _
        refine ih _ upd j bname p hget hnd2 ?_ hbu
        intro hmem
        rw [List.map_cons] at hmem
        rcases List.mem_cons.mp hmem with heq | hm
        · exact hname_ne heq.symm
        · exact hbs hm
      | other w =>
        rw [List.filter_cons_of_pos (by simp [isBN]), List.reverse_cons,
          List.append_assoc, List.singleton_append]
        show lookupUpd (fuseScan fe rest ((name, Module.other w) :: stack) upd) bname = _
        refine ih _ upd j bname p hget hnd2 ?_ hbu
        intro hmem
        rw [List.map_cons] at hmem
        rcases List.mem_cons.mp hmem with heq | hm
        · exact hname_ne heq.symm
        · exact hbs hm

/-- `convTopFuse` depends only on the head of the stack. -/
theorem convTopFuse_eq_head {α : Type} (stk : List (String × Module α)) :
    convTopFuse stk =
      (match stk.head? with
       | some (_, Module.conv2d _) => some (Module.identity : Module α)
       | _ => none) := by
  cases stk with
  | nil => rfl
  | cons a t =>
    obtain ⟨an, am⟩ := a
    cases am <;> rfl

/-- C5 counterexample: the claim says a normalization is folded *exactly
when* it directly follows, in declaration order, an affine-transform node.
In `[conv c, bn b1, bn b2]` the second normalization `b2` directly follows
the normalization `b1`, not an affine node — yet the pass fuses it too
(replacing it by the identity), because batch-norm children are never
pushed on the stack and the stale conv stays on top. -/
theorem C5_counterexample :
    (fuse_all_conv_bn cFe cModel0).get? 2 = some ("b2", Module.identity) ∧
    cModel0.get? 2 = some ("b2", Module.batchNorm2d 3) ∧
    (cModel0.get? 1).map (fun q => isConvM q.2) = some false := by
  exact ⟨rfl, rfl, rfl⟩

/-- C5 amended: with unique child names, a normalization child is folded
(replaced by the identity pass-through) *exactly when* the nearest
preceding non-normalization sibling, in declaration order, is an
affine-transform (conv) module — normalization siblings in between are
transparent; in every other case (no such sibling, or it is not a conv)
the occurrence is left unchanged, never an error. -/
theorem C5_amended {α : Type} (fe : α → α → α)
    (model : List (String × Module α))
    (hnd : (model.map Prod.fst).Nodup) (i : Nat) (bname : String) (p : α)
    (hget : model.get? i = some (bname, Module.batchNorm2d p)) :
    ((fuse_all_conv_bn fe model).get? i = some (bname, Module.identity) ↔
      ∃ sn w, precedingNonBN model i = some (sn, Module.conv2d w)) ∧
    ((∀ sn w, precedingNonBN model i ≠ some (sn, Module.conv2d w)) →
      (fuse_all_conv_bn fe model).get? i = some (bname, Module.batchNorm2d p)) := by
  have hL := fuseScan_lookup fe model [] [] i bname p hget hnd (by simp) rfl
  rw [List.append_nil, convTopFuse_eq_head, List.head?_reverse] at hL
  rw [show (List.filter (fun q => !isBN q.2) (List.take i model)).getLast? =
      precedingNonBN model i from rfl] at hL
  have hres_some : ∀ m2, lookupUpd (fuseScan fe model [] []) bname = some m2 →
      (fuse_all_conv_bn fe model).get? i = some (bname, m2) := by
    intro m2 h
    unfold fuse_all_conv_bn applyUpdates
    rw [List.get?_map, hget]
    simp only [Option.map_some']
    rw [h]
  have hres_none : lookupUpd (fuseScan fe model [] []) bname = none →
      (fuse_all_conv_bn fe model).get? i = some (bname, Module.batchNorm2d p) := by
    intro h
    unfold fuse_all_conv_bn applyUpdates
    rw [List.get?_map, hget]
    simp only [Option.map_some']
    rw [h]
  rcases hpn : precedingNonBN model i with _ | ⟨sn, sm⟩
  · rw [hpn] at hL
    have hfin := hres_none hL
    refine ⟨⟨?_, ?_⟩, fun _ => hfin⟩
    · intro hid
      rw [hfin] at hid
      simp at hid
    · rintro ⟨sn, w, hw⟩
      exact absurd hw (by simp)
  · cases sm with
    | conv2d w =>
      rw [hpn] at hL
      have hfin := hres_some _ hL
      refine ⟨⟨fun _ => ⟨sn, w, rfl⟩, fun _ => hfin⟩, ?_⟩
      intro hnone
      exact absurd rfl (hnone sn w)
    | batchNorm2d q =>
      rw [hpn] at hL
      have hfin := hres_none hL
      refine ⟨⟨?_, ?_⟩, fun _ => hfin⟩
      · intro hid
        rw [hfin] at hid
        simp at hid
      · rintro ⟨sn2, w, hw⟩
        exact absurd hw (by simp)
    | identity =>
      rw [hpn] at hL
      have hfin := hres_none hL
      refine ⟨⟨?_, ?_⟩, fun _ => hfin⟩
      · intro hid
        rw [hfin] at hid
        simp at hid
      · rintro ⟨sn2, w, hw⟩
        exact absurd hw (by simp)
    | other w2 =>
      rw [hpn] at hL
      have hfin := hres_none hL
      refine ⟨⟨?_, ?_⟩, fun _ => hfin⟩
      · intro hid
        rw [hfin] at hid
        simp at hid
      · rintro ⟨sn2, w, hw⟩
        exact absurd hw (by simp)

/-- C5 witness: in the concrete conv/bn/bn level, the nearest preceding
non-normalization sibling of `b2` is the conv, and `b2` is indeed folded. -/
theorem C5_amended_witness :
    (fuse_all_conv_bn cFe cModel0).get? 2 = some ("b2", Module.identity) :=
  (C5_amended cFe cModel0 (by decide) 2 "b2" 3 rfl).1.mpr ⟨"c", 1, rfl⟩

end TRTConv
